import Mathlib

/-!
Verification of the anytone-cli codeplug core (radio_ids.py, codeplug.py,
cli.py) against its specification.

Byte buffers are modelled as `List Nat`; Python's `bytes` type guarantees
every element is below 256, which theorems assume explicitly where needed.
Python's `while` loops are modelled by structurally recursive functions with
an explicit iteration bound (`fuel`); the termination theorems show the bound
used by the wrappers always suffices, so the fuel is never exhausted.
Raised exceptions are modelled by `Option`/`Except` results.
-/

namespace AnytoneCLI

/-- `RADIO_ID_SECTION_START` from radio_ids.py and codeplug.py:
`46 4F 20 42` followed by 28 zero bytes and `01` (33 bytes). -/
def RADIO_ID_SECTION_START : List Nat :=
  [0x46, 0x4F, 0x20, 0x42] ++ List.replicate 28 0 ++ [0x01]

/-- `RADIO_ID_SECTION_END` from radio_ids.py and codeplug.py (11 bytes). -/
def RADIO_ID_SECTION_END : List Nat :=
  [0x00, 0x01, 0x00, 0x04, 0x00, 0x00, 0x01, 0x00, 0x02, 0x00, 0x03]

/-- Whether pattern `pat` occurs in `data` starting exactly at index `i`
(the occurrence must fit entirely inside `data`). -/
def matchAt (data pat : List Nat) (i : Nat) : Bool :=
  (data.drop i).take pat.length == pat

/-- Python `data.find(pat)` for a byte pattern: the index of the first
occurrence, `none` when there is none. -/
def findSub (data pat : List Nat) : Option Nat :=
  (List.range (data.length + 1)).find? (fun i => matchAt data pat i)

/-- Python `data.find(pat)` with its `-1` "not found" convention. -/
def pyFind (data pat : List Nat) : Int :=
  match findSub data pat with
  | none => -1
  | some i => (i : Int)

/-- Python `data.find(b'\x00', start, stop)`: the index of the first zero
byte at an index in `[start, min stop (len data))`, `none` when there is
none. The walks call it with `stop = len data` (extraction) or
`stop = section_end` (mutation). -/
def findZeroFrom (data : List Nat) (start stop : Nat) : Option Nat :=
  (List.range' start (min stop data.length - start)).find? (fun i => data.getD i 0 == 0)

/-- Python slice `data[s:e]` for nonnegative bounds. -/
def pySlice (data : List Nat) (s e : Nat) : List Nat :=
  (data.take e).drop s

/-- Python slice assignment `data[pos:pos+3] = repl`. -/
def spliceBytes (data : List Nat) (pos : Nat) (repl : List Nat) : List Nat :=
  data.take pos ++ repl ++ data.drop (pos + 3)

/-- `get_uint24` from radio_ids.py (`_get_uint24` in codeplug.py is
identical): `data[offset] | (data[offset+1] << 8) | (data[offset+2] << 16)`.
Callers bounds-check (`pos + 2 < len(data)`) before calling; an
out-of-range read, which raises IndexError in Python, is modelled by
`get_uint24?` below. -/
def get_uint24 (data : List Nat) (offset : Nat) : Nat :=
  data.getD offset 0 ||| (data.getD (offset + 1) 0) <<< 8 ||| (data.getD (offset + 2) 0) <<< 16

/-- `get_uint24` with Python's IndexError modelled as `none`. -/
def get_uint24? (data : List Nat) (offset : Nat) : Option Nat :=
  match data[offset]?, data[offset + 1]?, data[offset + 2]? with
  | some b0, some b1, some b2 => some (b0 ||| b1 <<< 8 ||| b2 <<< 16)
  | _, _, _ => none

/-- `set_uint24` from radio_ids.py (`_set_uint24` in codeplug.py is
identical): the three little-endian bytes of a 24-bit value. -/
def set_uint24 (value : Nat) : List Nat :=
  [value &&& 0xFF, (value >>> 8) &&& 0xFF, (value >>> 16) &&& 0xFF]

/-- `find_radio_id_section` from radio_ids.py (`_find_radio_id_section` in
codeplug.py is byte-for-byte identical). `none` models the raised
`RadioIdError`/`CodeplugError` ("Could not locate radio ID section"). -/
def find_radio_id_section (data : List Nat) : Option (Nat × Nat) :=
  let section_start : Int := pyFind data RADIO_ID_SECTION_START + (RADIO_ID_SECTION_START.length : Int)
  let section_end : Int := pyFind data RADIO_ID_SECTION_END
  if section_start ≤ (RADIO_ID_SECTION_START.length : Int) ∨ section_end = -1 then none
  else some (section_start.toNat, section_end.toNat)

/-- The `while` loop of `extract_radio_ids` (radio_ids.py lines 51-74;
`_extract_radio_ids` in codeplug.py is identical). `fuel` bounds the number
of iterations; `fuel = len data` always suffices because the cursor strictly
increases by at least 5 per iteration (see the termination theorem). -/
def extractAux (data : List Nat) : Nat → Nat → List Nat
  | 0, _ => []
  | fuel + 1, pos =>
    if pos + 2 < data.length then
      let radio_id := get_uint24 data pos
      match findZeroFrom data (pos + 3) data.length with
      | none => if 0 < radio_id then [radio_id] else []
      | some next_zero =>
        if 0 < radio_id then radio_id :: extractAux data fuel (next_zero + 2)
        else extractAux data fuel (next_zero + 2)
    else []

/-- `extract_radio_ids` from radio_ids.py (= `_extract_radio_ids` in
codeplug.py): walk from position 2, collecting nonzero 24-bit values. -/
def extract_radio_ids (data : List Nat) : List Nat :=
  extractAux data data.length 2

/-- The extraction loop with Python's IndexError modelled as `none`:
every byte read goes through `get_uint24?`. -/
def extractAux? (data : List Nat) : Nat → Nat → Option (List Nat)
  | 0, _ => some []
  | fuel + 1, pos =>
    if pos + 2 < data.length then
      match get_uint24? data pos with
      | none => none
      | some radio_id =>
        match findZeroFrom data (pos + 3) data.length with
        | none => some (if 0 < radio_id then [radio_id] else [])
        | some next_zero =>
          (extractAux? data fuel (next_zero + 2)).map
            (fun rest => if 0 < radio_id then radio_id :: rest else rest)
    else some []

/-- `extract_radio_ids` with IndexError modelled as `none`. -/
def extract_radio_ids? (data : List Nat) : Option (List Nat) :=
  extractAux? data data.length 2

/-- The mutation loop shared by `update_radio_id` (radio_ids.py lines
124-141) and `update_radio_id` (codeplug.py lines 184-199): walk the slots
from `section_start + 2`, hopping to two past the next zero byte found
below `section_end`, and splice the three encoded bytes over the slot whose
walk position equals `zero_based_index`. The loop guard is
`pos + 2 < len(data) and found_index < n` where `n = len(radio_ids)`, so
`fuel = n` iterations always suffice. If the loop ends without patching,
the unmodified buffer is returned, as in the source. -/
def walkPatch (data : List Nat) (section_end n zero_based_index radio_id : Nat) :
    Nat → Nat → Nat → List Nat
  | 0, _, _ => data
  | fuel + 1, pos, found_index =>
    if pos + 2 < data.length ∧ found_index < n then
      if found_index = zero_based_index then
        spliceBytes data pos (set_uint24 radio_id)
      else
        match findZeroFrom data (pos + 3) section_end with
        | none => data
        | some next_zero =>
          walkPatch data section_end n zero_based_index radio_id fuel (next_zero + 2) (found_index + 1)
    else data

/-- The position at which `walkPatch` patches, `none` when its loop ends
without patching. Analysis companion of `walkPatch`. -/
def walkPos (data : List Nat) (section_end n zero_based_index : Nat) :
    Nat → Nat → Nat → Option Nat
  | 0, _, _ => none
  | fuel + 1, pos, found_index =>
    if pos + 2 < data.length ∧ found_index < n then
      if found_index = zero_based_index then some pos
      else
        match findZeroFrom data (pos + 3) section_end with
        | none => none
        | some next_zero =>
          walkPos data section_end n zero_based_index fuel (next_zero + 2) (found_index + 1)
    else none

/-- Error kinds raised by the update paths: `RadioIdError` in radio_ids.py,
`CodeplugError` in codeplug.py, distinguished here by their messages. -/
inductive UpdateError where
  | invalidValue
  | indexOutOfRange
  | sectionNotFound
deriving DecidableEq

/-- `update_radio_id` from radio_ids.py (lines 91-144): the index is
1-based and converted to 0-based once (`zero_based_index = index - 1`)
before the checks and the walk. All error checks precede the mutation loop,
so an error leaves the caller's buffer untouched. -/
def update_radio_id (data : List Nat) (index : Int) (radio_id : Nat) :
    Except UpdateError (List Nat) :=
  if radio_id < 1 ∨ 0xFFFFFF < radio_id then Except.error UpdateError.invalidValue
  else
    match find_radio_id_section data with
    | none => Except.error UpdateError.sectionNotFound
    | some (section_start, section_end) =>
      if index - 1 < 0 ∨
          ((extract_radio_ids (pySlice data section_start section_end)).length : Int) ≤ index - 1 then
        Except.error UpdateError.indexOutOfRange
      else
        Except.ok (walkPatch data section_end
          (extract_radio_ids (pySlice data section_start section_end)).length
          (index - 1).toNat radio_id
          (extract_radio_ids (pySlice data section_start section_end)).length
          (section_start + 2) 0)

/-- The byte-level core of `update_radio_id` from codeplug.py (lines
149-208), file I/O stripped: identical to the radio_ids.py variant except
that `index` is used directly as the 0-based index (no `- 1`). -/
def codeplug_update_radio_id (data : List Nat) (index : Int) (radio_id : Nat) :
    Except UpdateError (List Nat) :=
  if radio_id < 1 ∨ 0xFFFFFF < radio_id then Except.error UpdateError.invalidValue
  else
    match find_radio_id_section data with
    | none => Except.error UpdateError.sectionNotFound
    | some (section_start, section_end) =>
      if index < 0 ∨
          ((extract_radio_ids (pySlice data section_start section_end)).length : Int) ≤ index then
        Except.error UpdateError.indexOutOfRange
      else
        Except.ok (walkPatch data section_end
          (extract_radio_ids (pySlice data section_start section_end)).length
          index.toNat radio_id
          (extract_radio_ids (pySlice data section_start section_end)).length
          (section_start + 2) 0)

/-- The `update radio_id` command surface (cli.py line 40): the parsed
`index` argument is passed unchanged to codeplug.py's `update_radio_id`. -/
def cli_update_radio_id (data : List Nat) (index : Int) (radio_id : Nat) :
    Except UpdateError (List Nat) :=
  codeplug_update_radio_id data index radio_id

/-- Error kinds raised by `read_codeplug` before or while locating the
section (`CodeplugError` in the source, distinguished by message). -/
inductive ReadError where
  | fileTooSmall
  | sectionNotFound
deriving DecidableEq

/-- The summary fields of `read_codeplug`'s info dictionary that depend on
the buffer contents (filename, filesize, timestamps and the constant
placeholder counts are omitted). -/
structure CodeplugInfo where
  model : String
  radio_ids : List Nat
deriving DecidableEq

/-- The byte-level core of `read_codeplug` from codeplug.py (lines 44-101),
file I/O stripped. The `CodeplugError` raised by `_find_radio_id_section`
is not caught (the `except` clause catches only IOError/struct.error), so
it propagates and the locally populated info dictionary, model name
included, is discarded: the caller receives only the error. -/
def read_codeplug (data : List Nat) : Except ReadError CodeplugInfo :=
  if data.length < 16 then Except.error ReadError.fileTooSmall
  else
    let model0 :=
      if pySlice data 0 4 = [68, 56, 55, 56] then "Anytone AT-D878UV"
      else if pySlice data 0 4 = [68, 53, 55, 56] then "Anytone AT-D578UV"
      else "Unknown Anytone Model"
    let model :=
      if 17 ≤ data.length ∧ pySlice data 9 17 = [68, 56, 55, 56, 85, 86, 73, 73] then
        "Anytone AT-D878UVII"
      else model0
    match find_radio_id_section data with
    | none => Except.error ReadError.sectionNotFound
    | some (offset, offset_end) =>
      Except.ok ⟨model, extract_radio_ids (pySlice data offset offset_end)⟩

/-! ### Characterization of the delimiter search -/

theorem find?_range'_some {p : Nat → Bool} :
    ∀ n s z, (List.range' s n).find? p = some z →
      s ≤ z ∧ z < s + n ∧ p z = true ∧ ∀ k, s ≤ k → k < z → p k = false := by
  intro n
  induction n with
  | zero => intro s z h; simp [List.range'] at h
  | succ m ih =>
    intro s z h
    rw [List.range'_succ] at h
    by_cases hp : p s = true
    · rw [List.find?_cons_of_pos _ hp] at h
      cases h
      exact ⟨Nat.le_refl _, by omega, hp, fun k hk1 hk2 => absurd hk1 (by omega)⟩
    · rw [List.find?_cons_of_neg _ hp] at h
      obtain ⟨h1, h2, h3, h4⟩ := ih (s + 1) z h
      refine ⟨by omega, by omega, h3, ?_⟩
      intro k hk1 hk2
      rcases Nat.eq_or_lt_of_le hk1 with rfl | hk
      · exact Bool.not_eq_true _ ▸ (by simpa using hp)
      · exact h4 k (by omega) hk2

theorem find?_range'_some_intro {p : Nat → Bool} :
    ∀ n s z, s ≤ z → z < s + n → p z = true → (∀ k, s ≤ k → k < z → p k = false) →
      (List.range' s n).find? p = some z := by
  intro n
  induction n with
  | zero => intro s z h1 h2 _ _; exact absurd h2 (by omega)
  | succ m ih =>
    intro s z h1 h2 h3 h4
    rw [List.range'_succ]
    rcases Nat.eq_or_lt_of_le h1 with rfl | hlt
    · rw [List.find?_cons_of_pos _ h3]
    · have hps : ¬(p s = true) := by
        rw [h4 s (Nat.le_refl _) hlt]; simp
      rw [List.find?_cons_of_neg _ hps]
      exact ih (s + 1) z hlt (by omega) h3 (fun k hk1 hk2 => h4 k (by omega) hk2)

theorem findZeroFrom_some {data : List Nat} {s t z : Nat}
    (h : findZeroFrom data s t = some z) :
    s ≤ z ∧ z < min t data.length ∧ data.getD z 0 = 0 ∧
      ∀ k, s ≤ k → k < z → data.getD k 0 ≠ 0 := by
  unfold findZeroFrom at h
  obtain ⟨h1, h2, h3, h4⟩ := find?_range'_some _ _ _ h
  refine ⟨h1, by omega, by simpa using h3, ?_⟩
  intro k hk1 hk2
  have := h4 k hk1 hk2
  simpa using this

theorem findZeroFrom_some_intro {data : List Nat} {s t z : Nat}
    (h1 : s ≤ z) (h2 : z < min t data.length) (h3 : data.getD z 0 = 0)
    (h4 : ∀ k, s ≤ k → k < z → data.getD k 0 ≠ 0) :
    findZeroFrom data s t = some z := by
  unfold findZeroFrom
  apply find?_range'_some_intro _ _ _ h1 (by omega) (by simpa using h3)
  intro k hk1 hk2
  simpa using h4 k hk1 hk2

/-- The delimiter search only inspects bytes in `[s, z]`: a buffer of the
same length agreeing there yields the same result. -/
theorem findZeroFrom_congr {data d2 : List Nat} (hlen : d2.length = data.length)
    {s t z : Nat} (h : findZeroFrom data s t = some z)
    (hag : ∀ k, s ≤ k → k ≤ z → d2.getD k 0 = data.getD k 0) :
    findZeroFrom d2 s t = some z := by
  obtain ⟨h1, h2, h3, h4⟩ := findZeroFrom_some h
  apply findZeroFrom_some_intro h1 (by omega) (by rw [hag z h1 (Nat.le_refl _)]; exact h3)
  intro k hk1 hk2
  rw [hag k hk1 (by omega)]
  exact h4 k hk1 hk2

/-- A found pattern occurrence fits inside the buffer. -/
theorem findSub_bound {data pat : List Nat} {i : Nat}
    (h : findSub data pat = some i) (hp : 0 < pat.length) :
    i + pat.length ≤ data.length := by
  have hm := List.find?_some h
  unfold matchAt at hm
  have heq : (data.drop i).take pat.length = pat := by simpa using hm
  have hlen := congrArg List.length heq
  simp [List.length_take, List.length_drop] at hlen
  omega

/-! ### 24-bit codec arithmetic -/

theorem lor_mul_two_pow_add :
    ∀ (k a b : Nat), a < 2 ^ k → a ||| b * 2 ^ k = b * 2 ^ k + a := by
  intro k
  induction k with
  | zero =>
    intro a b ha
    simp only [pow_zero] at ha ⊢
    have : a = 0 := by omega
    subst this
    simp
  | succ k ih =>
    intro a b ha
    have hps : (2 : Nat) ^ (k + 1) = 2 ^ k * 2 := pow_succ 2 k
    have hy2 : b * 2 ^ (k + 1) = 2 * (b * 2 ^ k) := by rw [hps]; ring
    have hdiv : (a ||| b * 2 ^ (k + 1)) / 2 = a / 2 ||| b * 2 ^ k := by
      rw [hy2, Nat.or_div_two]
      congr 1
      omega
    have hmod : (a ||| b * 2 ^ (k + 1)) % 2 = a % 2 := by
      have hbm : b * 2 ^ (k + 1) % 2 = 0 := by rw [hy2]; omega
      have hiff := @Nat.or_mod_two_eq_one a (b * 2 ^ (k + 1))
      rcases Nat.mod_two_eq_zero_or_one a with h | h
      · rcases Nat.mod_two_eq_zero_or_one (a ||| b * 2 ^ (k + 1)) with h2 | h2
        · omega
        · have := hiff.mp h2
          omega
      · have := hiff.mpr (Or.inl h)
        omega
    have hrec : a / 2 ||| b * 2 ^ k = b * 2 ^ k + a / 2 :=
      ih (a / 2) b (by omega)
    have hdm := Nat.div_add_mod (a ||| b * 2 ^ (k + 1)) 2
    rw [hdiv, hmod, hrec] at hdm
    omega

/-- Little-endian recombination of three bytes (the first two below 256)
as plain arithmetic. -/
theorem uint24_bytes_eq (a b c : Nat) (ha : a < 256) (hb : b < 256) :
    a ||| b <<< 8 ||| c <<< 16 = c * 65536 + b * 256 + a := by
  rw [Nat.shiftLeft_eq, Nat.shiftLeft_eq]
  have h8 : (2 : Nat) ^ 8 = 256 := by norm_num
  have h16 : (2 : Nat) ^ 16 = 65536 := by norm_num
  have e1 : a ||| b * 2 ^ 8 = b * 2 ^ 8 + a :=
    lor_mul_two_pow_add 8 a b (by omega)
  have e2 : (b * 2 ^ 8 + a) ||| c * 2 ^ 16 = c * 2 ^ 16 + (b * 2 ^ 8 + a) :=
    lor_mul_two_pow_add 16 (b * 2 ^ 8 + a) c (by omega)
  rw [e1, e2]
  omega

/-! ### Slice-assignment lemmas -/

theorem spliceBytes_length {data repl : List Nat} {pos : Nat}
    (h : pos + 3 ≤ data.length) (hr : repl.length = 3) :
    (spliceBytes data pos repl).length = data.length := by
  simp [spliceBytes, List.length_take, List.length_drop, hr]
  omega

theorem spliceBytes_getD_lt {data repl : List Nat} {pos k : Nat}
    (hk : k < pos) (hp : pos ≤ data.length) :
    (spliceBytes data pos repl).getD k 0 = data.getD k 0 := by
  unfold spliceBytes
  rw [List.getD_eq_getElem?_getD, List.getD_eq_getElem?_getD, List.append_assoc,
    List.getElem?_append_left (by simp [List.length_take]; omega),
    List.getElem?_take_of_lt hk]

theorem spliceBytes_idem {data repl : List Nat} {pos : Nat}
    (h : pos + 3 ≤ data.length) (hr : repl.length = 3) :
    spliceBytes (spliceBytes data pos repl) pos repl = spliceBytes data pos repl := by
  have h1 : (data.take pos).length = pos := by simp [List.length_take]; omega
  have ht : (spliceBytes data pos repl).take pos = data.take pos := by
    unfold spliceBytes
    rw [List.append_assoc]
    exact List.take_left' h1
  have hd : (spliceBytes data pos repl).drop (pos + 3) = data.drop (pos + 3) := by
    unfold spliceBytes
    exact List.drop_left' (by simp [h1, hr])
  calc spliceBytes (spliceBytes data pos repl) pos repl
      = (spliceBytes data pos repl).take pos ++ repl ++
          (spliceBytes data pos repl).drop (pos + 3) := rfl
    _ = data.take pos ++ repl ++ data.drop (pos + 3) := by rw [ht, hd]
    _ = spliceBytes data pos repl := rfl

/-! ### Extraction loop lemmas -/

/-- Any byte read from a Python `bytes` buffer (every element below 256)
with default 0 is below 256. -/
theorem getD_lt_256 {data : List Nat} (hb : ∀ b ∈ data, b < 256) (i : Nat) :
    data.getD i 0 < 256 := by
  rw [List.getD_eq_getElem?_getD]
  cases h : data[i]? with
  | none => norm_num
  | some b => exact hb b (List.getElem?_mem h)

/-- A decoded 24-bit value from a byte buffer never exceeds 16777215. -/
theorem get_uint24_le {data : List Nat} (hb : ∀ b ∈ data, b < 256) (pos : Nat) :
    get_uint24 data pos ≤ 0xFFFFFF := by
  unfold get_uint24
  rw [uint24_bytes_eq _ _ _ (getD_lt_256 hb pos) (getD_lt_256 hb (pos + 1))]
  have h1 := getD_lt_256 hb pos
  have h2 := getD_lt_256 hb (pos + 1)
  have h3 := getD_lt_256 hb (pos + 2)
  omega

/-- Every value collected by the extraction loop is nonzero and fits in
24 bits. -/
theorem extractAux_mem {data : List Nat} (hb : ∀ b ∈ data, b < 256) :
    ∀ fuel pos v, v ∈ extractAux data fuel pos → 1 ≤ v ∧ v ≤ 0xFFFFFF := by
  intro fuel
  induction fuel with
  | zero => intro pos v hv; simp [extractAux] at hv
  | succ f ih =>
    intro pos v hv
    by_cases hg : pos + 2 < data.length
    · rcases hz : findZeroFrom data (pos + 3) data.length with _ | z
      · simp only [extractAux, hg, if_true, hz] at hv
        by_cases h0 : 0 < get_uint24 data pos
        · simp [h0] at hv
          subst hv
          exact ⟨h0, get_uint24_le hb pos⟩
        · simp [h0] at hv
      · simp only [extractAux, hg, if_true, hz] at hv
        by_cases h0 : 0 < get_uint24 data pos
        · simp [h0] at hv
          rcases hv with rfl | hv
          · exact ⟨h0, get_uint24_le hb pos⟩
          · exact ih (z + 2) v hv
        · simp [h0] at hv
          exact ih (z + 2) v hv
    · simp [extractAux, hg] at hv

/-- The extraction loop's result does not depend on the fuel once the fuel
is at least `len data - pos`: the loop always finishes within that many
iterations, because each continuing iteration advances the cursor by at
least 5. This is the termination argument for the Python `while` loop. -/
theorem extractAux_fuel_congr {data : List Nat} :
    ∀ fuel1 fuel2 pos, data.length - pos ≤ fuel1 → data.length - pos ≤ fuel2 →
      extractAux data fuel1 pos = extractAux data fuel2 pos := by
  intro fuel1
  induction fuel1 with
  | zero =>
    intro fuel2 pos h1 _
    have hg : ¬(pos + 2 < data.length) := by omega
    cases fuel2 with
    | zero => rfl
    | succ f2 => simp [extractAux, hg]
  | succ f1 ih =>
    intro fuel2 pos h1 h2
    cases fuel2 with
    | zero =>
      have hg : ¬(pos + 2 < data.length) := by omega
      simp [extractAux, hg]
    | succ f2 =>
      by_cases hg : pos + 2 < data.length
      · rcases hz : findZeroFrom data (pos + 3) data.length with _ | z
        · simp [extractAux, hg, hz]
        · obtain ⟨hz1, hz2, _, _⟩ := findZeroFrom_some hz
          have hrec : extractAux data f1 (z + 2) = extractAux data f2 (z + 2) :=
            ih f2 (z + 2) (by omega) (by omega)
          simp [extractAux, hg, hz, hrec]
      · simp [extractAux, hg]

/-- In-bounds 24-bit reads never hit Python's IndexError. -/
theorem get_uint24?_eq {data : List Nat} {pos : Nat} (h : pos + 2 < data.length) :
    get_uint24? data pos = some (get_uint24 data pos) := by
  have e : ∀ i, i < data.length → data[i]? = some (data.getD i 0) := by
    intro i hi
    rw [List.getD_eq_getElem?_getD, List.getElem?_eq_getElem hi]
    rfl
  unfold get_uint24? get_uint24
  rw [e pos (by omega), e (pos + 1) (by omega), e (pos + 2) (by omega)]

/-- The extraction loop never raises: the IndexError-aware variant always
returns the plain variant's result, because the loop guard
`pos + 2 < len data` keeps every decoder read in bounds. -/
theorem extractAux?_eq_some {data : List Nat} :
    ∀ fuel pos, extractAux? data fuel pos = some (extractAux data fuel pos) := by
  intro fuel
  induction fuel with
  | zero => intro pos; rfl
  | succ f ih =>
    intro pos
    by_cases hg : pos + 2 < data.length
    · rcases hz : findZeroFrom data (pos + 3) data.length with _ | z
      · simp [extractAux?, extractAux, hg, hz, get_uint24?_eq hg]
      · simp [extractAux?, extractAux, hg, hz, get_uint24?_eq hg, ih]
    · simp [extractAux?, extractAux, hg]

/-- A section whose slots all decode to zero yields no radio IDs. -/
theorem extractAux_all_zero {data : List Nat}
    (h : ∀ p, p + 2 < data.length → get_uint24 data p = 0) :
    ∀ fuel pos, extractAux data fuel pos = [] := by
  intro fuel
  induction fuel with
  | zero => intro pos; rfl
  | succ f ih =>
    intro pos
    by_cases hg : pos + 2 < data.length
    · have h0 : get_uint24 data pos = 0 := h pos hg
      rcases hz : findZeroFrom data (pos + 3) data.length with _ | z
      · simp [extractAux, hg, hz, h0]
      · simp [extractAux, hg, hz, h0, ih]
    · simp [extractAux, hg]

/-! ### Mutation loop lemmas -/

/-- The mutation loop either splices the three encoded bytes at the
position `walkPos` reports, or returns the buffer unchanged. -/
theorem walkPatch_eq_walkPos {data : List Nat} {e n zi v : Nat} :
    ∀ fuel pos fi, walkPatch data e n zi v fuel pos fi =
      match walkPos data e n zi fuel pos fi with
      | some P => spliceBytes data P (set_uint24 v)
      | none => data := by
  intro fuel
  induction fuel with
  | zero => intro pos fi; rfl
  | succ f ih =>
    intro pos fi
    by_cases hg : pos + 2 < data.length ∧ fi < n
    · by_cases hfi : fi = zi
      · subst hfi
        simp [walkPatch, walkPos, hg]
      · rcases hz : findZeroFrom data (pos + 3) e with _ | z
        · simp [walkPatch, walkPos, hg, hfi, hz]
        · simp [walkPatch, walkPos, hg, hfi, hz, ih]
    · simp [walkPatch, walkPos, hg]

/-- The patch position is at or after the cursor. -/
theorem walkPos_le {data : List Nat} {e n zi : Nat} :
    ∀ fuel pos fi P, walkPos data e n zi fuel pos fi = some P → pos ≤ P := by
  intro fuel
  induction fuel with
  | zero => intro pos fi P h; simp [walkPos] at h
  | succ f ih =>
    intro pos fi P h
    by_cases hg : pos + 2 < data.length ∧ fi < n
    · by_cases hfi : fi = zi
      · simp [walkPos, hg, hfi] at h
        omega
      · rcases hz : findZeroFrom data (pos + 3) e with _ | z
        · simp [walkPos, hg, hfi, hz] at h
        · simp only [walkPos, hg, and_self, if_true, hfi, if_false, hz] at h
          have h1 := ih (z + 2) (fi + 1) P h
          obtain ⟨hz1, _, _, _⟩ := findZeroFrom_some hz
          omega
    · simp [walkPos, hg] at h

/-- The loop guard holds at the patch position. -/
theorem walkPos_guard {data : List Nat} {e n zi : Nat} :
    ∀ fuel pos fi P, walkPos data e n zi fuel pos fi = some P → P + 2 < data.length := by
  intro fuel
  induction fuel with
  | zero => intro pos fi P h; simp [walkPos] at h
  | succ f ih =>
    intro pos fi P h
    by_cases hg : pos + 2 < data.length ∧ fi < n
    · by_cases hfi : fi = zi
      · simp [walkPos, hg, hfi] at h
        omega
      · rcases hz : findZeroFrom data (pos + 3) e with _ | z
        · simp [walkPos, hg, hfi, hz] at h
        · simp only [walkPos, hg, and_self, if_true, hfi, if_false, hz] at h
          exact ih (z + 2) (fi + 1) P h
    · simp [walkPos, hg] at h

/-- Walk stability: the mutation loop locates the same patch position on a
buffer of the same length that agrees below that position, for any field
count bound exceeding the target index. All hops up to the patch position
inspect only bytes strictly below it. -/
theorem walkPos_congr {data d2 : List Nat} (hlen : d2.length = data.length)
    {e n n2 zi P : Nat}
    (hag : ∀ k, k < P → d2.getD k 0 = data.getD k 0) (hzi : zi < n2) :
    ∀ fuel fuel2 pos fi, walkPos data e n zi fuel pos fi = some P →
      fi ≤ zi → zi - fi < fuel2 →
      walkPos d2 e n2 zi fuel2 pos fi = some P := by
  intro fuel
  induction fuel with
  | zero => intro fuel2 pos fi h; simp [walkPos] at h
  | succ f ih =>
    intro fuel2 pos fi h hfi hf2
    cases fuel2 with
    | zero => omega
    | succ f2 =>
      by_cases hg : pos + 2 < data.length ∧ fi < n
      · by_cases hfi0 : fi = zi
        · subst hfi0
          simp [walkPos, hg] at h
          have hg2 : pos + 2 < d2.length ∧ fi < n2 := by
            constructor
            · omega
            · omega
          simp [walkPos, hg2]
          omega
        · rcases hz : findZeroFrom data (pos + 3) e with _ | z
          · simp [walkPos, hg, hfi0, hz] at h
          · simp only [walkPos, hg, and_self, if_true, hfi0, if_false, hz] at h
            have hzP : z + 2 ≤ P := walkPos_le f (z + 2) (fi + 1) P h
            have hz2 : findZeroFrom d2 (pos + 3) e = some z :=
              findZeroFrom_congr hlen hz (fun k _ hk2 => hag k (by omega))
            have hrec := ih f2 (z + 2) (fi + 1) h (by omega) (by omega)
            have hg2 : pos + 2 < d2.length ∧ fi < n2 := by
              constructor
              · omega
              · omega
            simp [walkPos, hg2, hfi0, hz2, hrec]
      · simp [walkPos, hg] at h

/-! ### Concrete example buffers -/

/-- Buffer with both markers whose section `[00 00 | 00 00 00 | 00 FF | 05 00 00]`
holds one empty slot followed by one nonzero field (value 5). -/
def exC1 : List Nat :=
  [255] ++ RADIO_ID_SECTION_START ++ [0, 0, 0, 0, 0, 0, 255, 5, 0, 0] ++ RADIO_ID_SECTION_END

/-- `exC1` after the code's update of index 0 to value 7: bytes 36-38
(the empty slot) hold `07 00 00`; the field at 41 is untouched. -/
def exC1patched : List Nat :=
  [255] ++ RADIO_ID_SECTION_START ++ [0, 0, 7, 0, 0, 0, 255, 5, 0, 0] ++ RADIO_ID_SECTION_END

/-- Buffer whose section holds exactly one extractable field (value 5). -/
def exC3 : List Nat :=
  [255] ++ RADIO_ID_SECTION_START ++ [0, 0, 5, 0, 0] ++ RADIO_ID_SECTION_END

/-- Buffer with both markers, the start marker first occurring at offset 1. -/
def exC4w : List Nat :=
  [255] ++ RADIO_ID_SECTION_START ++ RADIO_ID_SECTION_END

/-- 16-byte buffer carrying the `D878` magic at offsets 0-3 and no section
start marker. -/
def exC5 : List Nat := [68, 56, 55, 56] ++ List.replicate 12 0

/-- Buffer with both markers and an all-zero (fieldless) section. -/
def exC7w : List Nat :=
  [255] ++ RADIO_ID_SECTION_START ++ [0, 0, 0] ++ RADIO_ID_SECTION_END

/-- Buffer whose section `[00 00 | 01 00 00 | 04 00 | 00 01 00 02 00 | 03]`
extracts the fields 1 and 131073; the first slot sits right before the
bytes `04 00 00 01 00 02 00 03`. -/
def exC9 : List Nat :=
  [255] ++ RADIO_ID_SECTION_START ++ [0, 0, 1, 0, 0, 4, 0, 0, 1, 0, 2, 0, 3] ++ RADIO_ID_SECTION_END

/-- `exC9` after updating index 1 (1-based) to 256: the slot now holds
`00 01 00`, completing an earlier occurrence of the end marker. -/
def exC9once : List Nat :=
  [255] ++ RADIO_ID_SECTION_START ++ [0, 0, 0, 1, 0, 4, 0, 0, 1, 0, 2, 0, 3] ++ RADIO_ID_SECTION_END

/-- Buffer with a benign single-field section used to witness the amended
idempotence statement. -/
def exC9w : List Nat :=
  [255] ++ RADIO_ID_SECTION_START ++ [0, 0, 5, 0, 0, 7] ++ RADIO_ID_SECTION_END

/-- `exC9w` after updating index 1 (1-based) to value 9. -/
def exC9wPatched : List Nat :=
  [255] ++ RADIO_ID_SECTION_START ++ [0, 0, 9, 0, 0, 7] ++ RADIO_ID_SECTION_END

/-! ### Claim theorems -/

/-- Claim C2 (code bug): when the start marker's first occurrence is at
offset 0 (end marker present), `data.find(start) + 33` equals 33, so the
check `section_start <= len(marker)` wrongly raises SectionNotFound even
though both markers occur; the claim (and the spec's canonical contract:
fail only when a marker is absent) says bounds should be returned. -/
theorem c2_offset_zero_bug :
    find_radio_id_section (RADIO_ID_SECTION_START ++ RADIO_ID_SECTION_END) = none := by
  decide

/-- Claim C4 counterexample: with the end marker occurring before the start
marker, the locator returns `(44, 0)`: `start_offset ≤ end_offset` fails. -/
theorem c4_counterexample :
    find_radio_id_section (RADIO_ID_SECTION_END ++ RADIO_ID_SECTION_START) = some (44, 0) ∧
    ¬(44 ≤ 0) := by
  refine ⟨by decide, by decide⟩

/-- Claim C4 (amended): every pair the locator returns satisfies
`start_offset ≤ len(buffer)` and `end_offset ≤ len(buffer)` (each marker
occurrence fits in the buffer), but not `start_offset ≤ end_offset`: the
code never compares the two offsets, and the end marker may occur first. -/
theorem c4_bounds_amended (data : List Nat) (s e : Nat)
    (h : find_radio_id_section data = some (s, e)) :
    s ≤ data.length ∧ e ≤ data.length := by
  have hLs : RADIO_ID_SECTION_START.length = 33 := by decide
  have hLe : RADIO_ID_SECTION_END.length = 11 := by decide
  unfold find_radio_id_section at h
  by_cases hc : pyFind data RADIO_ID_SECTION_START + (RADIO_ID_SECTION_START.length : Int) ≤
      (RADIO_ID_SECTION_START.length : Int) ∨ pyFind data RADIO_ID_SECTION_END = -1
  · rw [if_pos hc] at h
    exact absurd h (by simp)
  · rw [if_neg hc] at h
    push_neg at hc
    obtain ⟨hc1, hc2⟩ := hc
    have hse : ((pyFind data RADIO_ID_SECTION_START +
        (RADIO_ID_SECTION_START.length : Int)).toNat,
        (pyFind data RADIO_ID_SECTION_END).toNat) = (s, e) := by
      injection h
    rw [Prod.mk.injEq] at hse
    obtain ⟨hs, he⟩ := hse
    constructor
    · rcases hfs : findSub data RADIO_ID_SECTION_START with _ | i
      · simp only [pyFind, hfs, hLs] at hc1
        omega
      · have hb := findSub_bound hfs (by rw [hLs]; omega)
        simp only [pyFind, hfs, hLs] at hs
        rw [hLs] at hb
        omega
    · rcases hfe : findSub data RADIO_ID_SECTION_END with _ | j
      · simp only [pyFind, hfe] at hc2
        exact absurd rfl hc2
      · have hb := findSub_bound hfe (by rw [hLe]; omega)
        simp only [pyFind, hfe] at he
        rw [hLe] at hb
        omega

/-- Claim C4 witness: the amended bound theorem applied to a concrete
buffer whose locator returns `(34, 34)`. -/
theorem c4_bounds_amended_witness : 34 ≤ exC4w.length ∧ 34 ≤ exC4w.length :=
  c4_bounds_amended exC4w 34 34 (by decide)

/-- Claim C5 (amended): on a buffer of at least 16 bytes without the start
marker, the read path fails with SectionNotFound; the model name computed
from the magic bytes goes into a local dictionary that the uncaught
exception discards, so the caller receives no summary fields at all. -/
theorem c5_read_error_amended (data : List Nat) (h16 : 16 ≤ data.length)
    (hs : findSub data RADIO_ID_SECTION_START = none) :
    read_codeplug data = Except.error ReadError.sectionNotFound := by
  have hsec : find_radio_id_section data = none := by
    unfold find_radio_id_section
    rw [if_pos]
    left
    simp only [pyFind, hs]
    omega
  unfold read_codeplug
  rw [if_neg (by omega)]
  simp only [hsec]

/-- Claim C5 counterexample: a 16-byte buffer with the `D878` magic and no
start marker: the read path returns only the error — no info record, model
name included, reaches the caller, contradicting the claim that the
model/name summary fields still populate for the caller. -/
theorem c5_counterexample :
    read_codeplug exC5 = Except.error ReadError.sectionNotFound := by
  rfl

/-- Claim C5 witness: the amended theorem applied to the concrete magic-only
buffer. -/
theorem c5_read_error_amended_witness :
    read_codeplug exC5 = Except.error ReadError.sectionNotFound :=
  c5_read_error_amended exC5 (by decide) (by decide)

/-- Claim C6: for every value in [0, 16777215], decoding at offset 0 the
3-byte little-endian sequence produced by the encoder returns the value. -/
theorem c6_codec_roundtrip (v : Nat) (hv : v ≤ 16777215) :
    get_uint24 (set_uint24 v) 0 = v := by
  unfold get_uint24 set_uint24
  simp only [List.getD_cons_zero, List.getD_cons_succ]
  have e255 : (0xFF : Nat) = 2 ^ 8 - 1 := by norm_num
  rw [e255, Nat.and_pow_two_sub_one_eq_mod, Nat.and_pow_two_sub_one_eq_mod,
    Nat.and_pow_two_sub_one_eq_mod, Nat.shiftRight_eq_div_pow, Nat.shiftRight_eq_div_pow]
  norm_num
  rw [uint24_bytes_eq _ _ _ (Nat.mod_lt _ (by norm_num)) (Nat.mod_lt _ (by norm_num))]
  omega

/-- Claim C6 witness: the round trip evaluated at 11259375 (0xABCDEF). -/
theorem c6_codec_roundtrip_witness : get_uint24 (set_uint24 11259375) 0 = 11259375 :=
  c6_codec_roundtrip 11259375 (by norm_num)

/-- Claim C8: the section walk terminates on every input byte sequence:
whenever the delimiter search lets the loop continue, the new cursor (found
zero offset + 2) is at least 5 beyond the old cursor, and consequently the
loop finishes within `len data - pos` iterations: the extraction result is
the same for every iteration bound at least that large (the wrapper passes
`len data`), i.e. the loop exits via the length guard or the
missing-delimiter break before any such bound runs out. -/
theorem c8_walk_terminates :
    (∀ (data : List Nat) (pos z : Nat),
        findZeroFrom data (pos + 3) data.length = some z → pos + 5 ≤ z + 2) ∧
    (∀ (data : List Nat) (fuel1 fuel2 pos : Nat),
        data.length - pos ≤ fuel1 → data.length - pos ≤ fuel2 →
        extractAux data fuel1 pos = extractAux data fuel2 pos) := by
  constructor
  · intro data pos z h
    obtain ⟨h1, _, _, _⟩ := findZeroFrom_some h
    omega
  · intro data fuel1 fuel2 pos h1 h2
    exact extractAux_fuel_congr fuel1 fuel2 pos h1 h2

/-- Claim C8 witness: cursor advance and fuel irrelevance on concrete
buffers. -/
theorem c8_walk_terminates_witness :
    3 + 5 ≤ 6 + 2 ∧ extractAux [0, 0, 1, 0, 0] 5 2 = extractAux [0, 0, 1, 0, 0] 99 2 :=
  ⟨c8_walk_terminates.1 [1, 1, 1, 1, 1, 1, 0, 9] 3 6 (by decide),
   c8_walk_terminates.2 [0, 0, 1, 0, 0] 5 99 2 (by decide) (by decide)⟩

/-- Claim C10: extraction raises no exception on any byte buffer — the
IndexError-aware extractor always returns the plain extractor's result,
since the loop guard `pos + 2 < len data` keeps every decoder read in
bounds — and every returned value lies in [1, 16777215]. -/
theorem c10_extract_safe (data : List Nat) (hb : ∀ b ∈ data, b < 256) :
    extract_radio_ids? data = some (extract_radio_ids data) ∧
    ∀ v ∈ extract_radio_ids data, 1 ≤ v ∧ v ≤ 16777215 := by
  refine ⟨extractAux?_eq_some _ _, ?_⟩
  intro v hv
  exact extractAux_mem hb _ _ v hv

/-- Claim C10 witness: safety and the value-range bound instantiated on a
concrete section buffer. -/
theorem c10_extract_safe_witness :
    extract_radio_ids? [0, 0, 1, 0, 0] = some (extract_radio_ids [0, 0, 1, 0, 0]) ∧
    1 ≤ 1 ∧ 1 ≤ 16777215 :=
  ⟨(c10_extract_safe [0, 0, 1, 0, 0] (by decide)).1,
   (c10_extract_safe [0, 0, 1, 0, 0] (by decide)).2 1 (by decide)⟩

/-- Claim C1 (code bug): `exC1`'s section (bounds (34, 44)) extracts the
single field 5, whose 3-byte encoding starts at absolute offset 41.
Updating index 0 to value 7 must, per the claim, overwrite exactly the
bytes at 41-43 and make re-extraction yield `[7]`. The code's mutation
walk instead counts every slot — zero-valued empty slots included — while
extraction counts only nonzero fields, so it patches the empty slot at
offset 36: byte 41 still holds 5 and re-extraction yields `[7, 5]`. -/
theorem c1_code_divergence :
    extract_radio_ids (pySlice exC1 34 44) = [5] ∧
    codeplug_update_radio_id exC1 0 7 = Except.ok exC1patched ∧
    extract_radio_ids (pySlice exC1patched 34 44) = [7, 5] ∧
    exC1patched.getD 41 0 = 5 :=
  ⟨by decide, by rfl, by decide, by decide⟩

/-- Claim C3 counterexample: `exC3`'s section holds exactly one field, so
per the claim external index 1 should patch the field extraction lists at
internal position 0. The actual command surface (cli.py passing straight
to codeplug.py) treats the index as 0-based: index 1 fails the bound check
`index >= len(radio_ids)` and raises IndexOutOfRange, patching nothing,
while the unused 1-based radio_ids.py variant would succeed. -/
theorem c3_counterexample :
    (extract_radio_ids (pySlice exC3 34 39)).length = 1 ∧
    cli_update_radio_id exC3 1 7 = Except.error UpdateError.indexOutOfRange := by
  refine ⟨by decide, by rfl⟩

/-- Claim C3 (amended): the user-facing update index on the command surface
is 0-based, not 1-based: cli.py passes the parsed index unchanged to
codeplug.py's updater, which checks and walks with it directly. It behaves
exactly like radio_ids.py's 1-based updater invoked at index + 1 — the
single 1-to-0 translation exists only in that module, which the CLI does
not call. -/
theorem c3_zero_based_amended (data : List Nat) (index : Int) (radio_id : Nat) :
    cli_update_radio_id data index radio_id = update_radio_id data (index + 1) radio_id := by
  unfold cli_update_radio_id codeplug_update_radio_id update_radio_id
  have e : index + 1 - 1 = index := by omega
  rw [e]

/-- Claim C7: the update operation (0-based codeplug.py variant, the one on
the command surface) raises InvalidValue for every value outside
[1, 16777215] — that check runs first — and, for a valid value, raises
IndexOutOfRange for every index at or beyond the number of extracted
fields; a section whose slots all decode to zero extracts no fields, so
there every nonnegative index fails that way. Each error is raised before
the mutation loop runs, so the model never produces a patched buffer in
these cases (in Python, the buffer bytes are untouched). -/
theorem c7_update_error_contract (data : List Nat) (index : Int) (v : Nat) (s e : Nat) :
    ((v < 1 ∨ 16777215 < v) →
      codeplug_update_radio_id data index v = Except.error UpdateError.invalidValue) ∧
    (1 ≤ v → v ≤ 16777215 → find_radio_id_section data = some (s, e) →
      ((extract_radio_ids (pySlice data s e)).length : Int) ≤ index →
      codeplug_update_radio_id data index v = Except.error UpdateError.indexOutOfRange) ∧
    ((∀ p, p + 2 < (pySlice data s e).length → get_uint24 (pySlice data s e) p = 0) →
      extract_radio_ids (pySlice data s e) = []) := by
  refine ⟨?_, ?_, ?_⟩
  · intro hv
    unfold codeplug_update_radio_id
    rw [if_pos (by omega)]
  · intro h1 h2 hf hn
    unfold codeplug_update_radio_id
    rw [if_neg (by omega)]
    simp only [hf]
    rw [if_pos (Or.inr hn)]
  · intro hz
    unfold extract_radio_ids
    exact extractAux_all_zero hz _ _

/-- Claim C7 witness: on `exC7w` (all-zero section, bounds (34, 37)),
value 0 raises InvalidValue, a valid value raises IndexOutOfRange at
index 0, and extraction is empty. -/
theorem c7_update_error_contract_witness :
    codeplug_update_radio_id exC7w 0 0 = Except.error UpdateError.invalidValue ∧
    codeplug_update_radio_id exC7w 0 5 = Except.error UpdateError.indexOutOfRange ∧
    extract_radio_ids (pySlice exC7w 34 37) = [] :=
  ⟨(c7_update_error_contract exC7w 0 0 34 37).1 (Or.inl (by norm_num)),
   (c7_update_error_contract exC7w 0 5 34 37).2.1 (by norm_num) (by norm_num)
     (by decide) (by decide),
   (c7_update_error_contract exC7w 0 5 34 37).2.2 (by
     intro p hp
     have h3 : (pySlice exC7w 34 37).length = 3 := by decide
     rw [h3] at hp
     have hp0 : p = 0 := by omega
     subst hp0
     decide)⟩

/-- Claim C9 counterexample: updating `exC9` at 1-based index 1 to 256
writes the bytes `00 01 00` into the first slot, which completes an
earlier occurrence of the 11-byte end marker inside the old section.
Re-locating the section in the patched buffer then yields the bounds
(34, 36): a 2-byte section with no fields. The second identical update
therefore raises IndexOutOfRange instead of returning the same buffer —
update is not idempotent. -/
theorem c9_counterexample :
    update_radio_id exC9 1 256 = Except.ok exC9once ∧
    update_radio_id exC9once 1 256 = Except.error UpdateError.indexOutOfRange := by
  refine ⟨by rfl, by rfl⟩

/-- Claim C9 (amended): applying the update twice with the same index and
value yields the same buffer as applying it once, provided the patch does
not disturb the marker search — the patched buffer's section bounds equal
the original's — and the patched buffer still extracts more fields than
the zero-based index. (The counterexample shows the provisos are
necessary: a patch can complete an earlier end-marker occurrence, shrinking
the section the second call sees.) Under them, the second walk revisits the
same hops — each hop inspects only bytes below the patch position, which
the patch leaves untouched — and splices the very bytes already present. -/
theorem c9_idempotent_amended (data d2 : List Nat) (index : Int) (v : Nat) (s e : Nat)
    (h1 : update_radio_id data index v = Except.ok d2)
    (h2 : find_radio_id_section data = some (s, e))
    (h3 : find_radio_id_section d2 = some (s, e))
    (h4 : (index - 1).toNat < (extract_radio_ids (pySlice d2 s e)).length) :
    update_radio_id d2 index v = Except.ok d2 := by
  unfold update_radio_id at h1
  by_cases hv : v < 1 ∨ 0xFFFFFF < v
  · rw [if_pos hv] at h1
    exact absurd h1 (by simp)
  rw [if_neg hv] at h1
  simp only [h2] at h1
  by_cases hidx : index - 1 < 0 ∨
      ((extract_radio_ids (pySlice data s e)).length : Int) ≤ index - 1
  · rw [if_pos hidx] at h1
    exact absurd h1 (by simp)
  rw [if_neg hidx] at h1
  have hd2 : walkPatch data e (extract_radio_ids (pySlice data s e)).length
      (index - 1).toNat v (extract_radio_ids (pySlice data s e)).length (s + 2) 0 = d2 := by
    simpa using h1
  push_neg at hidx
  have hcond : ¬(index - 1 < 0 ∨
      ((extract_radio_ids (pySlice d2 s e)).length : Int) ≤ index - 1) := by
    push_neg
    refine ⟨hidx.1, ?_⟩
    omega
  unfold update_radio_id
  rw [if_neg hv]
  simp only [h3]
  rw [if_neg hcond]
  rcases hwp : walkPos data e (extract_radio_ids (pySlice data s e)).length
      (index - 1).toNat (extract_radio_ids (pySlice data s e)).length (s + 2) 0 with _ | P
  · have hnd : walkPatch data e (extract_radio_ids (pySlice data s e)).length
        (index - 1).toNat v (extract_radio_ids (pySlice data s e)).length (s + 2) 0 = data := by
      rw [walkPatch_eq_walkPos, hwp]
    have hde : d2 = data := by rw [← hd2, hnd]
    subst hde
    rw [hnd]
  · have hP2 : P + 2 < data.length := walkPos_guard _ _ _ _ hwp
    have henc : (set_uint24 v).length = 3 := rfl
    have hwpatch : walkPatch data e (extract_radio_ids (pySlice data s e)).length
        (index - 1).toNat v (extract_radio_ids (pySlice data s e)).length (s + 2) 0 =
        spliceBytes data P (set_uint24 v) := by
      rw [walkPatch_eq_walkPos, hwp]
    have hd2' : d2 = spliceBytes data P (set_uint24 v) := by rw [← hd2, hwpatch]
    have hlen : d2.length = data.length := by
      rw [hd2']
      exact spliceBytes_length (by omega) henc
    have hag : ∀ k, k < P → d2.getD k 0 = data.getD k 0 := by
      intro k hk
      rw [hd2']
      exact spliceBytes_getD_lt hk (by omega)
    have hwp2 : walkPos d2 e (extract_radio_ids (pySlice d2 s e)).length
        (index - 1).toNat (extract_radio_ids (pySlice d2 s e)).length (s + 2) 0 = some P :=
      walkPos_congr hlen hag h4 _ _ _ _ hwp (Nat.zero_le _) (by omega)
    rw [walkPatch_eq_walkPos]
    simp only [hwp2]
    rw [hd2', spliceBytes_idem (by omega) henc]

/-- Claim C9 witness: the amended idempotence applied to a concrete benign
update: `exC9w` patched at 1-based index 1 to value 9 keeps its section
bounds (34, 40) and one extracted field, and the second update returns the
patched buffer unchanged. -/
theorem c9_idempotent_amended_witness :
    update_radio_id exC9wPatched 1 9 = Except.ok exC9wPatched :=
  c9_idempotent_amended exC9w exC9wPatched 1 9 34 40 (by rfl) (by decide) (by decide)
    (by decide)

end AnytoneCLI
